import Mathlib

/-!
Verification of the event-aligned series annotator in
`src/pages/3_Steel_Price_Events.py` (change detection over the FRED
DFEDTARU reference series, the manual/derived event merge, the plot-range
event filter, and the before/after window extraction).

Modelling conventions:
* Calendar dates (`pandas` timestamps at day resolution) are embedded as
  `(year, month, day)` triples ordered lexicographically; the page's year
  filter (`fred["Date"].dt.year >= min_year`, line 192) reads the `year`
  field directly.
* Float values of the reference series are embedded as exact rationals:
  the comparisons in the source (`!=`, `>`) are exact float comparisons,
  no epsilon is involved (spec section 4.1 note).
* `DataFrame.sort_values("Date")` uses the pandas default
  `kind=quicksort`, which pandas documents as NOT stable.  Sorting is
  therefore embedded relationally: an admissible sort result is any
  permutation of the input that is ascending in the `Date` key.  Facts
  that hold for every admissible result are proved universally;
  facts that fail for some admissible result are refuted by exhibiting
  that result.
* Rows whose `Date` or numeric column fails to parse are `None` fields of
  a raw row; `pd.to_datetime(..., errors="coerce")` /
  `pd.to_numeric(..., errors="coerce")` followed by `dropna` is embedded
  as `dropna` over `Option` fields.
-/

namespace SteelEvents

/-- A calendar date as carried by the `Date` column: year, month, day. -/
structure Date where
  year : Nat
  month : Nat
  day : Nat
deriving DecidableEq, Repr

/-- Lexicographic order on calendar dates (timestamp order). -/
def Date.le (a b : Date) : Prop :=
  a.year < b.year ∨
    (a.year = b.year ∧ (a.month < b.month ∨ (a.month = b.month ∧ a.day ≤ b.day)))

/-- Strict lexicographic order on calendar dates. -/
def Date.lt (a b : Date) : Prop :=
  a.year < b.year ∨
    (a.year = b.year ∧ (a.month < b.month ∨ (a.month = b.month ∧ a.day < b.day)))

instance Date.decLe : DecidableRel Date.le := fun a b => by
  unfold Date.le; infer_instance

instance Date.decLt : DecidableRel Date.lt := fun a b => by
  unfold Date.lt; infer_instance

theorem Date.le_total (a b : Date) : a.le b ∨ b.le a := by
  unfold Date.le; omega

theorem Date.le_trans {a b c : Date} (h1 : a.le b) (h2 : b.le c) : a.le c := by
  unfold Date.le at *; omega

theorem Date.le_refl (a : Date) : a.le a := by
  unfold Date.le; omega

theorem Date.lt_asymm {a b : Date} (h : a.lt b) : ¬ b.lt a := by
  unfold Date.lt at *; omega

theorem Date.lt_ne {a b : Date} (h : a.lt b) : a ≠ b := by
  intro he; subst he; unfold Date.lt at h; omega

theorem Date.lt_le {a b : Date} (h : a.lt b) : a.le b := by
  unfold Date.lt at h; unfold Date.le; omega

theorem Date.eq_of_le_not_lt {a b : Date} (h1 : a.le b) (h2 : ¬ a.lt b) : a = b := by
  obtain ⟨y1, m1, d1⟩ := a
  obtain ⟨y2, m2, d2⟩ := b
  unfold Date.le at h1
  unfold Date.lt at h2
  simp only [Date.mk.injEq]
  simp only at h1 h2
  omega

theorem Date.lt_of_le_of_ne {a b : Date} (h1 : a.le b) (h2 : a ≠ b) : a.lt b := by
  by_contra h3
  exact h2 (Date.eq_of_le_not_lt h1 h3)

theorem Date.not_lt_iff_le {a b : Date} : ¬ a.lt b ↔ b.le a := by
  unfold Date.lt Date.le; omega

/-- Label content of an event.  Derived (Fed) events carry the structured
content of the formatted string built by `_fmt_change` (lines 201-207):
`rangeSet v` for "Fed target range upper limit set to v%", `rangeUp v` /
`rangeDown v` for the arrow variants (the rendered text shows `v` with two
decimals).  Manual events carry free text. -/
inductive Label where
  | text (s : String)
  | rangeSet (v : ℚ)
  | rangeUp (v : ℚ)
  | rangeDown (v : ℚ)
deriving DecidableEq, Repr

/-- One event row: `Date`, `Event` (label), `Category`, `Why it matters`. -/
structure Event where
  date : Date
  label : Label
  category : String
  rationale : String
deriving DecidableEq, Repr

/-- Date order lifted to event rows (the `sort_values("Date")` key). -/
def evLe (a b : Event) : Prop := a.date.le b.date

instance : DecidableRel evLe := fun a b => by
  unfold evLe; infer_instance

instance : IsTotal Event evLe := ⟨fun a b => Date.le_total a.date b.date⟩

instance : IsTrans Event evLe := ⟨fun _ _ _ h1 h2 => Date.le_trans h1 h2⟩

/-- One clean observation of the reference series: (timestamp, value). -/
abbrev Obs : Type := Date × ℚ

/-- Date order on reference-series rows (the `sort_values("Date")` key). -/
def obsLe (a b : Obs) : Prop := a.1.le b.1

instance : DecidableRel obsLe := fun a b => by
  unfold obsLe; infer_instance

instance : IsTotal Obs obsLe := ⟨fun a b => Date.le_total a.1 b.1⟩

instance : IsTrans Obs obsLe := ⟨fun _ _ _ h1 h2 => Date.le_trans h1 h2⟩

/-- Category string attached to every derived Fed event (line 210). -/
def fedCategory : String := "Monetary policy (Fed)"

/-- Rationale string attached to every derived Fed event (line 211). -/
def fedRationale : String :=
  "Policy rates affect financing conditions, demand sensitivity, and risk appetite."

/-- `_fmt_change` (lines 201-207): a missing previous value renders as
"set to", otherwise the arrow is up exactly when the current value is
strictly greater than the previous one. -/
def fmtChange (prev : Option ℚ) (cur : ℚ) : Label :=
  match prev with
  | none => Label.rangeSet cur
  | some p => if p < cur then Label.rangeUp cur else Label.rangeDown cur

/-- Row-retention test of line 199 (`fred["Upper"] != fred["Prev"]`): the
first row compares against the shifted-in missing value and is always
kept; later rows are kept when the value differs from the previous row. -/
def keepRow (prev : Option ℚ) (cur : ℚ) : Bool :=
  match prev with
  | none => true
  | some p => decide (cur ≠ p)

/-- The shift-and-compare body of lines 198-211, walking the year-filtered
frame with the value of the immediately preceding row. -/
def detectFrom (prev : Option ℚ) : List Obs → List Event
  | [] => []
  | (d, v) :: rest =>
    if keepRow prev v then
      { date := d, label := fmtChange prev v,
        category := fedCategory, rationale := fedRationale } :: detectFrom (some v) rest
    else
      detectFrom (some v) rest

/-- Change detection over an already-sorted, year-filtered series:
`Prev = Upper.shift(1)`, keep rows with `Upper != Prev`, format each kept
row with `_fmt_change` (lines 198-211). -/
def detectRuns (l : List Obs) : List Event := detectFrom none l

/-- The year filter of line 192: keep rows with `Date.dt.year >= min_year`. -/
def filterYear (minYear : Nat) (l : List Obs) : List Obs :=
  l.filter (fun p => decide (minYear ≤ p.1.year))

/-- Admissible result of `sort_values("Date")` on reference rows: pandas'
default quicksort guarantees a permutation ascending in `Date` but, being
unstable, fixes nothing else. -/
def SortedByDate (l out : List Obs) : Prop :=
  out.Perm l ∧ out.Pairwise obsLe

/-- Admissible result of `sort_values("Date")` on event rows. -/
def SortedByDateE (l out : List Event) : Prop :=
  out.Perm l ∧ out.Pairwise evLe

/-- Change detection on a clean reference series, lines 189-212 after the
`dropna`: sort by `Date` (relational, see `SortedByDate`), filter to years
at or above the slider bound, then shift-and-compare. -/
def DetectChangesSpec (l : List Obs) (minYear : Nat) (out : List Event) : Prop :=
  ∃ s, SortedByDate l s ∧ out = detectRuns (filterYear minYear s)

/-- A raw reference-series row before coercion: either field may fail to
parse (`errors="coerce"` produces NaT/NaN, embedded as `none`). -/
structure RawRow where
  date : Option Date
  value : Option ℚ
deriving DecidableEq, Repr

/-- `dropna(subset=["Date", "Upper"])` after the two coercions of lines
189-190: keep exactly the rows where both fields parsed. -/
def dropna (l : List RawRow) : List Obs :=
  l.filterMap (fun r =>
    match r.date, r.value with
    | some d, some v => some (d, v)
    | _, _ => none)

/-- Lines 189-212 from raw rows: coerce, drop unparsed rows, then detect. -/
def RawDetectSpec (raw : List RawRow) (minYear : Nat) (out : List Event) : Prop :=
  DetectChangesSpec (dropna raw) minYear out

/-- Modelled from the spec wording of section 4.1, for the refinement in
claim C1 (continuation runs): one event per maximal run of equal
consecutive values, dated at the run's first timestamp, labelled with the
direction against the preceding run's value. -/
def runsFrom (prev : ℚ) : List Obs → List Event
  | [] => []
  | (d, v) :: rest =>
    if v = prev then runsFrom prev rest
    else
      { date := d, label := (if prev < v then Label.rangeUp v else Label.rangeDown v),
        category := fedCategory, rationale := fedRationale } :: runsFrom v rest

/-- Modelled from the spec wording of section 4.1, for the refinement in
claim C1: the first retained observation opens a run labelled "set to",
every later maximal run contributes one directional event. -/
def runsSpec : List Obs → List Event
  | [] => []
  | (d, v) :: rest =>
    { date := d, label := Label.rangeSet v,
      category := fedCategory, rationale := fedRationale } :: runsFrom v rest

/-- A raw manual-event row as it leaves the data editor: the `Date` cell
may fail to parse (`pd.to_datetime(..., errors="coerce")`, line 284). -/
structure RawEvent where
  date : Option Date
  label : Label
  category : String
  rationale : String
deriving DecidableEq, Repr

/-- Lines 283-285 before the sort: coerce `Date`, then
`dropna(subset=["Date"])` keeps exactly the rows whose date parsed. -/
def dropnaDate (l : List RawEvent) : List Event :=
  l.filterMap (fun r =>
    match r.date with
    | some d => some { date := d, label := r.label,
                       category := r.category, rationale := r.rationale }
    | none => none)

/-- Lines 283-285: admissible cleaned manual-event table — the rows whose
date parsed, in some `Date`-ascending order. -/
def ManualCleanSpec (raw : List RawEvent) (out : List Event) : Prop :=
  out.Perm (dropnaDate raw) ∧ out.Pairwise evLe

/-- Lines 288-290 on clean inputs: `pd.concat([manual_events, fed_events])`
followed by `sort_values("Date")` — an admissible result is any
`Date`-ascending permutation of the concatenation (the re-coercion and
`dropna` of lines 289-290 are identities on clean rows). -/
def MergeSpec (manual derived out : List Event) : Prop :=
  out.Perm (manual ++ derived) ∧ out.Pairwise evLe

/-- The per-row retention test of lines 330-333: the marker loop skips a
row exactly when `d < min_d or d > max_d`. -/
def inPlotRange (lo hi : Date) (e : Event) : Bool :=
  !(decide (e.date.lt lo)) && !(decide (hi.lt e.date))

/-- The events that survive the marker loop of lines 329-347: one vline is
drawn per retained row. -/
def overlayFilter (lo hi : Date) (l : List Event) : List Event :=
  l.filter (inPlotRange lo hi)

/-- The combined merge-and-filter step (lines 288-290 then 330-333):
concatenate, sort by date (relational), keep the rows whose date lies in
the plot range. -/
def MergeFilterSpec (manual derived : List Event) (lo hi : Date)
    (out : List Event) : Prop :=
  ∃ s, MergeSpec manual derived s ∧ out = overlayFilter lo hi s

/-- One price observation of the plotted series: (timestamp, value).
Timestamps are day-resolution instants embedded as integers, so the
`pd.Timedelta(days=w)` arithmetic of lines 383-384 is integer addition. -/
abbrev TimePoint : Type := Int × ℚ

/-- Lines 383-386: `start = d0 - Timedelta(days=w)`,
`end = d0 + Timedelta(days=w)`, then keep the rows of the plotted series
with `start <= index <= end`. -/
def windowF (series : List TimePoint) (center radius : Int) : List TimePoint :=
  series.filter (fun p =>
    decide (center - radius ≤ p.1) && decide (p.1 ≤ center + radius))

/-- Outcome of the before/after block: either the informational message of
line 389 or a rendered window chart (lines 391-404). -/
inductive RenderOutcome where
  | info
  | chart (points : List TimePoint)
deriving DecidableEq, Repr

/-- Lines 388-404: `if window.empty: st.info(...) else: <render chart>`. -/
def windowStep (series : List TimePoint) (center radius : Int) : RenderOutcome :=
  let w := windowF series center radius
  if w.isEmpty then RenderOutcome.info else RenderOutcome.chart w

/-- What one iteration of the URL loop of lines 167-183 can observe:
`pd.read_csv` raised (any exception), or returned a table with the given
(already whitespace-stripped) column names and rows. -/
inductive FetchOutcome where
  | exn (msg : String)
  | table (cols : List String) (rows : List RawRow)
deriving DecidableEq, Repr

/-- The column check of lines 173-177: a fetched table is usable when it
has a `DFEDTARU` column next to either a `DATE` or an `observation_date`
column (both branches accept and rename identically). -/
def hasGoodCols (cols : List String) : Bool :=
  (cols.contains "DATE" || cols.contains "observation_date") && cols.contains "DFEDTARU"

/-- The URL loop of lines 164-183: try each outcome in order; a usable
table breaks out of the loop, an exception or an unexpected column set
records a last-error message and moves on. -/
def fredLoop : List FetchOutcome → Option String → Option (List RawRow) × Option String
  | [], lastError => (none, lastError)
  | FetchOutcome.exn m :: rest, _ => fredLoop rest (some m)
  | FetchOutcome.table cols rows :: rest, lastError =>
    if hasGoodCols cols then (some rows, lastError)
    else fredLoop rest
      (some ("Unexpected columns from FRED: " ++ String.intercalate ", " cols))

/-- An outcome the loop cannot use: an exception, or a table lacking the
expected columns. -/
def failedOutcome : FetchOutcome → Prop
  | FetchOutcome.exn _ => True
  | FetchOutcome.table cols _ => ¬ hasGoodCols cols = true

instance : DecidablePred failedOutcome := fun o =>
  match o with
  | FetchOutcome.exn _ => isTrue trivial
  | FetchOutcome.table _ _ => instDecidableNot

/-- The result table of `load_fed_target_range_changes`: its column list
and its event rows. -/
structure EventsFrame where
  cols : List String
  rows : List Event
deriving DecidableEq, Repr

/-- The column list of every returned frame (lines 186, 195, 212). -/
def resultCols : List String := ["Date", "Event", "Category", "Why it matters"]

/-- The empty frame returned on failure and on an empty filtered series
(lines 186, 195). -/
def emptyEventsFrame : EventsFrame := { cols := resultCols, rows := [] }

/-- The warning of line 187:
"Fed overlay unavailable (FRED fetch/parse failed). LAST-ERROR", with the
trailing space stripped when no last error was recorded. -/
def failWarning (lastError : Option String) : String :=
  "Fed overlay unavailable (FRED fetch/parse failed)." ++
    (match lastError with
     | some m => " " ++ m
     | none => "")

/-- `load_fed_target_range_changes` end to end (lines 154-212): run the
URL loop; on failure return the empty frame and the warning; on success
coerce and drop unparsed rows, sort by date (relational), filter by year,
and detect changes (the early return of lines 194-196 on an empty filtered
frame produces the same observable result, since detection of an empty
series is empty). -/
def LoadFedSpec (outs : List FetchOutcome) (minYear : Nat)
    (res : EventsFrame × Option String) : Prop :=
  ((fredLoop outs none).1 = none ∧
    res = (emptyEventsFrame, some (failWarning (fredLoop outs none).2))) ∨
  (∃ rows, (fredLoop outs none).1 = some rows ∧
    ∃ s, SortedByDate (dropna rows) s ∧
      res = ({ cols := resultCols, rows := detectRuns (filterYear minYear s) }, none))

theorem detectFrom_eq_runsFrom (l : List Obs) :
    ∀ p : ℚ, detectFrom (some p) l = runsFrom p l := by
  induction l with
  | nil => intro p; rfl
  | cons x rest ih =>
    intro p
    obtain ⟨d, v⟩ := x
    by_cases hv : v = p
    · subst hv
      simp [detectFrom, runsFrom, keepRow, ih]
    · simp [detectFrom, runsFrom, keepRow, hv, ih, fmtChange]

theorem detectRuns_eq_runsSpec (l : List Obs) : detectRuns l = runsSpec l := by
  cases l with
  | nil => rfl
  | cons x rest =>
    obtain ⟨d, v⟩ := x
    simp [detectRuns, detectFrom, runsSpec, keepRow, fmtChange, detectFrom_eq_runsFrom]

theorem detectFrom_dates_sublist (l : List Obs) :
    ∀ prev, ((detectFrom prev l).map Event.date).Sublist (l.map Prod.fst) := by
  induction l with
  | nil => intro prev; simp [detectFrom]
  | cons x rest ih =>
    intro prev
    obtain ⟨d, v⟩ := x
    simp only [detectFrom, List.map_cons]
    by_cases hk : keepRow prev v = true
    · rw [if_pos hk]
      simp only [List.map_cons]
      exact List.Sublist.cons₂ _ (ih (some v))
    · rw [if_neg hk]
      exact List.Sublist.cons _ (ih (some v))

theorem pairwise_strict_of_nodup {α : Type} (key : α → Date) {out : List α}
    (hnodup : (out.map key).Nodup)
    (hs : out.Pairwise (fun a b => (key a).le (key b))) :
    out.Pairwise (fun a b => (key a).lt (key b)) :=
  hs.imp₂ (fun _ _ h1 h2 => Date.lt_of_le_of_ne h1 h2) (List.pairwise_map.1 hnodup)

theorem sorted_perm_eq {α : Type} (key : α → Date) {l out : List α}
    (hl : l.Pairwise (fun a b => (key a).lt (key b)))
    (hperm : out.Perm l)
    (hsort : out.Pairwise (fun a b => (key a).le (key b))) : out = l := by
  haveI : IsAntisymm α (fun a b => (key a).lt (key b)) :=
    ⟨fun _ _ h1 h2 => absurd h2 (Date.lt_asymm h1)⟩
  have hnodup : (l.map key).Nodup := by
    rw [List.Nodup, List.pairwise_map]
    exact hl.imp (fun h => Date.lt_ne h)
  have hnodup2 : (out.map key).Nodup := ((hperm.map key).nodup_iff).2 hnodup
  exact List.eq_of_perm_of_sorted hperm (pairwise_strict_of_nodup key hnodup2 hsort) hl

theorem sorted_perm_unique {α : Type} (key : α → Date) {l out out2 : List α}
    (hnodup : (l.map key).Nodup) (h1 : out.Perm l) (h2 : out2.Perm l)
    (hs1 : out.Pairwise (fun a b => (key a).le (key b)))
    (hs2 : out2.Pairwise (fun a b => (key a).le (key b))) : out = out2 := by
  haveI : IsAntisymm α (fun a b => (key a).lt (key b)) :=
    ⟨fun _ _ ha hb => absurd hb (Date.lt_asymm ha)⟩
  have hn1 : (out.map key).Nodup := ((h1.map key).nodup_iff).2 hnodup
  have hn2 : (out2.map key).Nodup := ((h2.map key).nodup_iff).2 hnodup
  exact List.eq_of_perm_of_sorted (h1.trans h2.symm)
    (pairwise_strict_of_nodup key hn1 hs1) (pairwise_strict_of_nodup key hn2 hs2)

theorem detect_changes_det {l : List Obs} {y : Nat} {out : List Event}
    (hsort : l.Pairwise (fun a b => a.1.lt b.1))
    (h : DetectChangesSpec l y out) : out = detectRuns (filterYear y l) := by
  obtain ⟨s, ⟨hperm, hs⟩, rfl⟩ := h
  rw [sorted_perm_eq (fun p : Obs => p.1) hsort hperm hs]

theorem detect_dates_sorted {l : List Obs} (h : l.Pairwise obsLe) :
    (detectRuns l).Pairwise evLe := by
  have h1 : (l.map Prod.fst).Pairwise Date.le := List.pairwise_map.2 h
  have h2 : ((detectRuns l).map Event.date).Pairwise Date.le :=
    h1.sublist (detectFrom_dates_sublist l none)
  exact List.Pairwise.of_map Event.date (fun _ _ hab => hab) h2

/-- Claim C1: on a reference series strictly ascending in timestamp,
change detection after the year filter emits exactly one event per maximal
run of equal consecutive values, dated at the run's first timestamp and in
chronological order; the first retained observation is labelled as the
value being set, every later run as the value moving up or down against
the immediately preceding value (`runsSpec` is that spec-worded
description); in particular the spec's concrete scenario yields exactly
the two stated events. -/
theorem detect_changes_runs (l : List Obs) (y : Nat) (out : List Event)
    (hsort : l.Pairwise (fun a b => a.1.lt b.1))
    (h : DetectChangesSpec l y out) :
    out = runsSpec (filterYear y l) ∧
    out.Pairwise evLe ∧
    (∀ out2 : List Event,
      DetectChangesSpec
        [(⟨2022,1,1⟩, (0:ℚ)), (⟨2022,1,2⟩, 0), (⟨2022,1,3⟩, 1)] 2022 out2 →
      out2 = [{ date := ⟨2022,1,1⟩, label := Label.rangeSet 0,
                category := fedCategory, rationale := fedRationale },
              { date := ⟨2022,1,3⟩, label := Label.rangeUp 1,
                category := fedCategory, rationale := fedRationale }]) := by
  have hdet := detect_changes_det hsort h
  refine ⟨?_, ?_, ?_⟩
  · rw [hdet, detectRuns_eq_runsSpec]
  · rw [hdet]
    exact detect_dates_sorted ((hsort.imp (fun hab => Date.lt_le hab)).filter _)
  · intro out2 h2
    rw [detect_changes_det (by decide) h2]
    decide

/-- Witness for C1: the spec's concrete scenario, instantiating the run
description at the three-point reference series. -/
theorem detect_changes_runs_witness :
    [{ date := ⟨2022,1,1⟩, label := Label.rangeSet 0,
       category := fedCategory, rationale := fedRationale },
     { date := ⟨2022,1,3⟩, label := Label.rangeUp 1,
       category := fedCategory, rationale := fedRationale }] =
      runsSpec (filterYear 2022 [(⟨2022,1,1⟩, (0:ℚ)), (⟨2022,1,2⟩, 0), (⟨2022,1,3⟩, 1)]) :=
  (detect_changes_runs [(⟨2022,1,1⟩, (0:ℚ)), (⟨2022,1,2⟩, 0), (⟨2022,1,3⟩, 1)] 2022
    [{ date := ⟨2022,1,1⟩, label := Label.rangeSet 0,
       category := fedCategory, rationale := fedRationale },
     { date := ⟨2022,1,3⟩, label := Label.rangeUp 1,
       category := fedCategory, rationale := fedRationale }]
    (by decide)
    ⟨[(⟨2022,1,1⟩, (0:ℚ)), (⟨2022,1,2⟩, 0), (⟨2022,1,3⟩, 1)],
      ⟨by decide, by decide⟩, by decide⟩).1

/-- Claim C2 counterexample: on an unsorted reference series the change
detection does not fail — it relates the unsorted input to the ordinary
(nonempty) detection result of the silently re-sorted series; and a
negative window radius raises nothing and is not clamped — the inverted
bounds simply produce an empty window (radius 0 at the same center would
keep the center point). -/
theorem detect_no_validation_counterexample :
    (¬ ([(⟨2022,1,3⟩,(1:ℚ)), (⟨2022,1,1⟩,0), (⟨2022,1,2⟩,0)] : List Obs).Pairwise obsLe) ∧
    DetectChangesSpec [(⟨2022,1,3⟩,(1:ℚ)), (⟨2022,1,1⟩,0), (⟨2022,1,2⟩,0)] 2022
      [{ date := ⟨2022,1,1⟩, label := Label.rangeSet 0,
         category := fedCategory, rationale := fedRationale },
       { date := ⟨2022,1,3⟩, label := Label.rangeUp 1,
         category := fedCategory, rationale := fedRationale }] ∧
    windowF [((5:Int),(10:ℚ))] 5 (-3) = [] ∧
    windowF [((5:Int),(10:ℚ))] 5 0 = [(5, 10)] :=
  ⟨by decide,
   ⟨[(⟨2022,1,1⟩,(0:ℚ)), (⟨2022,1,2⟩,0), (⟨2022,1,3⟩,1)], ⟨by decide, by decide⟩, by decide⟩,
   by decide, by decide⟩

/-- Claim C2 amended: neither operation validates its input contract.
Change detection accepts every input — it always yields a result, and two
inputs that are permutations of each other are related to exactly the same
results (the series is silently re-sorted, its incoming order is
immaterial); window extraction accepts a negative radius without raising
or clamping, returning the empty window forced by the inverted bounds. -/
theorem detect_window_no_validation :
    (∀ (l : List Obs) (y : Nat), ∃ out, DetectChangesSpec l y out) ∧
    (∀ (l l2 : List Obs) (y : Nat) (out : List Event), l.Perm l2 →
      (DetectChangesSpec l y out ↔ DetectChangesSpec l2 y out)) ∧
    (∀ (series : List TimePoint) (center radius : Int), radius < 0 →
      windowF series center radius = []) := by
  refine ⟨?_, ?_, ?_⟩
  · intro l y
    exact ⟨detectRuns (filterYear y (List.insertionSort obsLe l)),
      List.insertionSort obsLe l,
      ⟨List.perm_insertionSort obsLe l, List.sorted_insertionSort obsLe l⟩, rfl⟩
  · intro l l2 y out hp
    constructor
    · rintro ⟨s, ⟨h1, h2⟩, rfl⟩
      exact ⟨s, ⟨h1.trans hp, h2⟩, rfl⟩
    · rintro ⟨s, ⟨h1, h2⟩, rfl⟩
      exact ⟨s, ⟨h1.trans hp.symm, h2⟩, rfl⟩
  · intro series center radius hr
    rw [windowF, List.filter_eq_nil_iff]
    intro p _
    simp only [Bool.and_eq_true, decide_eq_true_eq, not_and]
    omega

/-- Witness for the amended C2: an unsorted series and its sorted
permutation admit exactly the same detection results. -/
theorem detect_window_no_validation_witness :
    DetectChangesSpec [(⟨2022,1,3⟩,(1:ℚ)), (⟨2022,1,1⟩,0), (⟨2022,1,2⟩,0)] 2022 [] ↔
      DetectChangesSpec [(⟨2022,1,1⟩,(0:ℚ)), (⟨2022,1,2⟩,0), (⟨2022,1,3⟩,1)] 2022 [] :=
  detect_window_no_validation.2.1
    [(⟨2022,1,3⟩,(1:ℚ)), (⟨2022,1,1⟩,0), (⟨2022,1,2⟩,0)]
    [(⟨2022,1,1⟩,(0:ℚ)), (⟨2022,1,2⟩,0), (⟨2022,1,3⟩,1)] 2022 [] (by decide)

/-- Claim C6: window extraction keeps exactly the points with
center - radius <= timestamp <= center + radius; a radius of 0 keeps only
points at the center; an empty window is returned normally, and the caller
short-circuits to the informational message instead of rendering. -/
theorem window_bounds_exact (series : List TimePoint) (center radius : Int) :
    (∀ p : TimePoint, p ∈ windowF series center radius ↔
      p ∈ series ∧ center - radius ≤ p.1 ∧ p.1 ≤ center + radius) ∧
    (∀ p : TimePoint, p ∈ windowF series center 0 → p.1 = center) ∧
    (windowF series center radius = [] →
      windowStep series center radius = RenderOutcome.info) ∧
    (windowF series center radius ≠ [] →
      windowStep series center radius =
        RenderOutcome.chart (windowF series center radius)) := by
  refine ⟨?_, ?_, ?_, ?_⟩
  · intro p
    simp [windowF, List.mem_filter, and_assoc]
  · intro p hp
    have h := (List.mem_filter.1 hp).2
    simp only [Bool.and_eq_true, decide_eq_true_eq] at h
    omega
  · intro h
    simp [windowStep, h]
  · intro h
    simp [windowStep, h]

/-- Witness for C6: a window around a center with no nearby points
short-circuits to the informational message. -/
theorem window_bounds_exact_witness :
    windowStep [((5:Int),(10:ℚ))] 100 1 = RenderOutcome.info :=
  (window_bounds_exact [((5:Int),(10:ℚ))] 100 1).2.2.1 (by decide)

/-- Claim C7: change detection always yields a result — never an error;
an input that is empty after the year filter (in particular the empty
input) yields the empty event sequence. -/
theorem detect_empty_total (l : List Obs) (y : Nat) :
    (∃ out, DetectChangesSpec l y out) ∧
    (∀ out, DetectChangesSpec l y out → filterYear y l = [] → out = []) ∧
    (∀ out, DetectChangesSpec [] y out → out = []) := by
  refine ⟨?_, ?_, ?_⟩
  · exact ⟨detectRuns (filterYear y (List.insertionSort obsLe l)),
      List.insertionSort obsLe l,
      ⟨List.perm_insertionSort obsLe l, List.sorted_insertionSort obsLe l⟩, rfl⟩
  · rintro out ⟨s, ⟨hperm, hs⟩, rfl⟩ hempty
    have hp : (filterYear y s).Perm (filterYear y l) := hperm.filter _
    rw [hempty] at hp
    rw [hp.eq_nil]
    rfl
  · rintro out ⟨s, ⟨hperm, hs⟩, rfl⟩
    rw [hperm.eq_nil]
    rfl

/-- Witness for C7: a series entirely before the year bound admits the
empty result. -/
theorem detect_empty_total_witness : ([] : List Event) = [] :=
  (detect_empty_total [(⟨2010,1,1⟩, (5:ℚ))] 2018).2.1 []
    ⟨[(⟨2010,1,1⟩, (5:ℚ))], ⟨by decide, by decide⟩, by decide⟩ (by decide)

/-- The manual event of the spec's tie scenario (C4). -/
def evA : Event :=
  { date := ⟨2022,3,1⟩, label := Label.text "A", category := "Geopolitics", rationale := "" }

/-- The derived event of the spec's tie scenario (C4). -/
def evB : Event :=
  { date := ⟨2022,3,1⟩, label := Label.text "B", category := fedCategory, rationale := "" }

/-- A manual event at a later date, for nodup-date scenarios. -/
def evC : Event :=
  { date := ⟨2022,5,1⟩, label := Label.text "C", category := "Demand / Macro", rationale := "" }

/-- A manual event outside the 2022 plot range. -/
def evOut : Event :=
  { date := ⟨2023,5,1⟩, label := Label.text "Out", category := "Geopolitics", rationale := "" }

/-- The range test of lines 330-333 accepts exactly the inclusive
interval. -/
theorem inPlotRange_iff (lo hi : Date) (e : Event) :
    inPlotRange lo hi e = true ↔ (lo.le e.date ∧ e.date.le hi) := by
  simp only [inPlotRange, Bool.and_eq_true, Bool.not_eq_true', decide_eq_false_iff_not]
  rw [Date.not_lt_iff_le, Date.not_lt_iff_le]

/-- Claim C3: the merge-and-filter step keeps exactly the events whose
date lies in the inclusive plot range — every retained event is in range,
in-range events keep their input multiplicity (each input occurrence
appears exactly once), and out-of-range events never appear. -/
theorem merge_filter_range_exact (manual derived : List Event) (lo hi : Date)
    (out : List Event) (h : MergeFilterSpec manual derived lo hi out) :
    (∀ e ∈ out, lo.le e.date ∧ e.date.le hi) ∧
    (∀ e : Event, lo.le e.date → e.date.le hi →
      out.count e = (manual ++ derived).count e) ∧
    (∀ e : Event, ¬ (lo.le e.date ∧ e.date.le hi) → e ∉ out) := by
  obtain ⟨s, ⟨hperm, hsort⟩, rfl⟩ := h
  refine ⟨?_, ?_, ?_⟩
  · intro e he
    exact (inPlotRange_iff lo hi e).1 (List.mem_filter.1 he).2
  · intro e h1 h2
    rw [overlayFilter, List.count_filter ((inPlotRange_iff lo hi e).2 ⟨h1, h2⟩)]
    exact hperm.count_eq e
  · intro e hrange he
    exact hrange ((inPlotRange_iff lo hi e).1 (List.mem_filter.1 he).2)

/-- Witness for C3: an in-range manual event keeps its single occurrence
while an out-of-range one is dropped. -/
theorem merge_filter_range_exact_witness :
    [evA].count evA = ([evA] ++ [evOut]).count evA :=
  (merge_filter_range_exact [evA] [evOut] ⟨2022,1,1⟩ ⟨2022,12,31⟩ [evA]
    ⟨[evA, evOut], ⟨by decide, by decide⟩, by decide⟩).2.1 evA (by decide) (by decide)

/-- Claim C4 counterexample: the sort of lines 288-290 is the pandas
default quicksort, which is not stable, so its contract admits the
derived-before-manual order at the shared date — the claimed output
[A, B] is not forced. -/
theorem merge_tie_order_counterexample :
    ¬ (∀ out : List Event, MergeSpec [evA] [evB] out → out = [evA, evB]) := by
  intro hclaim
  have h := hclaim [evB, evA] ⟨by decide, by decide⟩
  exact absurd h (by decide)

/-- Claim C4 amended: the merged output is ascending in date and is a
permutation of the concatenated inputs; when no two input events share a
date the output is uniquely determined; at a shared date both orders are
admissible (both orders of the spec's tie scenario satisfy the merge
contract). -/
theorem merge_sorted_perm_tie_unspecified (manual derived : List Event)
    (out : List Event) (h : MergeSpec manual derived out) :
    out.Perm (manual ++ derived) ∧ out.Pairwise evLe ∧
    (((manual ++ derived).map Event.date).Nodup →
      ∀ out2, MergeSpec manual derived out2 → out2 = out) ∧
    (MergeSpec [evA] [evB] [evA, evB] ∧ MergeSpec [evA] [evB] [evB, evA]) := by
  obtain ⟨hperm, hsort⟩ := h
  refine ⟨hperm, hsort, ?_, ⟨by decide, by decide⟩, ⟨by decide, by decide⟩⟩
  rintro hnd out2 ⟨hperm2, hsort2⟩
  exact sorted_perm_unique Event.date hnd hperm2 hperm hsort2 hsort

/-- Witness for the amended C4: the derived-first order is itself an
admissible merge of the tie scenario. -/
theorem merge_sorted_perm_tie_unspecified_witness :
    ([evB, evA] : List Event).Perm ([evA] ++ [evB]) :=
  (merge_sorted_perm_tie_unspecified [evA] [evB] [evB, evA]
    ⟨by decide, by decide⟩).1

/-- Claim C5 counterexample: the merge deduplicates nothing, so two
identical (date, label) events in the input — for instance a manual event
entered twice — coexist in the merged output. -/
theorem merge_duplicate_identity_counterexample :
    ¬ (∀ manual derived out : List Event, MergeSpec manual derived out →
        out.Pairwise (fun a b => a.date ≠ b.date ∨ a.label ≠ b.label)) := by
  intro hclaim
  have h := hclaim [evA, evA] [] [evA, evA] ⟨by decide, by decide⟩
  exact absurd h (by decide)

/-- Claim C5 amended: the merge preserves multiplicities — it never
deduplicates — so the merged output has pairwise-distinct (date, label)
identities exactly when the combined input does. -/
theorem merge_multiplicity_preserved (manual derived out : List Event)
    (h : MergeSpec manual derived out) :
    (∀ e : Event, out.count e = (manual ++ derived).count e) ∧
    (((manual ++ derived).map (fun e => (e.date, e.label))).Nodup ↔
      (out.map (fun e => (e.date, e.label))).Nodup) := by
  obtain ⟨hperm, hsort⟩ := h
  exact ⟨fun e => hperm.count_eq e, ((hperm.map _).nodup_iff).symm⟩

/-- Witness for the amended C5: the duplicated manual event keeps both
occurrences through the merge. -/
theorem merge_multiplicity_preserved_witness :
    ([evA, evA] : List Event).count evA = ([evA, evA] ++ ([] : List Event)).count evA :=
  (merge_multiplicity_preserved [evA, evA] [] [evA, evA]
    ⟨by decide, by decide⟩).1 evA

/-- Claim C8 counterexample: merge-and-filter applied to its own output is
not forced to return the same sequence — at a shared date the unstable
sort may swap the tie on the second pass. -/
theorem merge_filter_idempotent_counterexample :
    ¬ (∀ (manual derived : List Event) (lo hi : Date) (out out2 : List Event),
        MergeFilterSpec manual derived lo hi out →
        MergeFilterSpec out [] lo hi out2 → out2 = out) := by
  intro hclaim
  have h := hclaim [evA] [evB] ⟨2022,1,1⟩ ⟨2022,12,31⟩ [evA, evB] [evB, evA]
    ⟨[evA, evB], ⟨by decide, by decide⟩, by decide⟩
    ⟨[evB, evA], ⟨by decide, by decide⟩, by decide⟩
  exact absurd h (by decide)

/-- Claim C8 amended: re-applying merge-and-filter to its own output (with
the same range) yields a date-ascending permutation of the first output,
and equals it whenever no two of its events share a date; only the
relative order inside a shared date can change. -/
theorem merge_filter_idempotent_up_to_ties (manual derived : List Event)
    (lo hi : Date) (out out2 : List Event)
    (h1 : MergeFilterSpec manual derived lo hi out)
    (h2 : MergeFilterSpec out [] lo hi out2) :
    out2.Perm out ∧ out2.Pairwise evLe ∧
    ((out.map Event.date).Nodup → out2 = out) := by
  obtain ⟨s, ⟨hperm, hsort⟩, rfl⟩ := h1
  obtain ⟨s2, ⟨hperm2, hsort2⟩, rfl⟩ := h2
  have hperm2' : s2.Perm (overlayFilter lo hi s) := by
    simpa using hperm2
  have hall : ∀ e ∈ s2, inPlotRange lo hi e = true := by
    intro e he
    exact (List.mem_filter.1 (hperm2'.subset he)).2
  have hfix : overlayFilter lo hi s2 = s2 := List.filter_eq_self.2 hall
  rw [hfix]
  refine ⟨hperm2', hsort2, ?_⟩
  intro hnd
  exact sorted_perm_unique Event.date hnd hperm2' (List.Perm.refl _) hsort2
    (hsort.filter _)

/-- Witness for the amended C8: with distinct dates the second application
returns the first output unchanged. -/
theorem merge_filter_idempotent_up_to_ties_witness :
    ([evA, evC] : List Event) = [evA, evC] :=
  (merge_filter_idempotent_up_to_ties [evA] [evC] ⟨2022,1,1⟩ ⟨2022,12,31⟩
    [evA, evC] [evA, evC]
    ⟨[evA, evC], ⟨by decide, by decide⟩, by decide⟩
    ⟨[evA, evC], ⟨by decide, by decide⟩, by decide⟩).2.2 (by decide)

theorem fredLoop_fst_eq_none {outs : List FetchOutcome}
    (hfail : ∀ o ∈ outs, failedOutcome o) :
    ∀ lastError, (fredLoop outs lastError).1 = none := by
  induction outs with
  | nil => intro lastError; rfl
  | cons o rest ih =>
    intro lastError
    have ho := hfail o (List.mem_cons_self o rest)
    have hrest : ∀ o2 ∈ rest, failedOutcome o2 :=
      fun o2 h2 => hfail o2 (List.mem_cons_of_mem o h2)
    cases o with
    | exn m => exact ih hrest _
    | table cols rows =>
      have hbad : ¬ hasGoodCols cols = true := ho
      rw [fredLoop, if_neg hbad]
      exact ih hrest _

theorem failWarning_ne_empty (lastError : Option String) : failWarning lastError ≠ "" := by
  intro h
  have h1 := congrArg String.length h
  unfold failWarning at h1
  rw [String.length_append] at h1
  have h2 : ("Fed overlay unavailable (FRED fetch/parse failed)." : String).length = 50 := by
    decide
  have h3 : ("" : String).length = 0 := by decide
  rw [h2, h3] at h1
  omega

/-- Claim C9: when every fetch or parse attempt fails,
`load_fed_target_range_changes` propagates no exception — it returns the
empty event table with columns Date, Event, Category, "Why it matters"
and a non-empty warning, and merging that empty derived table changes
nothing: the overlay is a permutation of the manual events alone. -/
theorem load_fed_fail_safe (outs : List FetchOutcome) (y : Nat)
    (res : EventsFrame × Option String)
    (hfail : ∀ o ∈ outs, failedOutcome o) (h : LoadFedSpec outs y res) :
    res.1 = emptyEventsFrame ∧ res.1.rows = [] ∧ res.1.cols = resultCols ∧
    (∃ w, res.2 = some w ∧ w ≠ "") ∧
    (∀ manual out, MergeSpec manual res.1.rows out → out.Perm manual) := by
  rcases h with ⟨_, rfl⟩ | ⟨rows, hsome, _⟩
  · refine ⟨rfl, rfl, rfl, ⟨failWarning (fredLoop outs none).2, rfl,
      failWarning_ne_empty _⟩, ?_⟩
    rintro manual out ⟨hperm, _⟩
    simpa [emptyEventsFrame] using hperm
  · rw [fredLoop_fst_eq_none hfail none] at hsome
    exact absurd hsome (by simp)

/-- Witness for C9: one raising URL and one table with wrong columns. -/
theorem load_fed_fail_safe_witness :
    (emptyEventsFrame, some (failWarning (some "Unexpected columns from FRED: A, B"))).1.rows
      = ([] : List Event) :=
  (load_fed_fail_safe
    [FetchOutcome.exn "HTTPError: 404", FetchOutcome.table ["A", "B"] []] 2018
    (emptyEventsFrame, some (failWarning (some "Unexpected columns from FRED: A, B")))
    (by decide) (Or.inl ⟨by decide, by decide⟩)).2.1

theorem dropna_cons_none {r : RawRow} (hr : r.date = none ∨ r.value = none)
    (l : List RawRow) : dropna (r :: l) = dropna l := by
  rcases r with ⟨rd, rv⟩
  rcases hr with h | h
  · simp only at h
    subst h
    rfl
  · simp only at h
    subst h
    cases rd <;> rfl

/-- Claim C10: rows whose date or value fails to parse are dropped before
any processing — removing such a row changes nothing, every derived event
is dated at a parsed row of the reference series, every merged manual
event originates in a row whose date parsed, and a missing value sitting
between two equal observations produces no event and does not split their
run (the concrete four-row series with a NaN between two zeros yields the
same two events as without it). -/
theorem dropna_valid_rows :
    (∀ (xs ys : List RawRow) (r : RawRow), (r.date = none ∨ r.value = none) →
      dropna (xs ++ r :: ys) = dropna (xs ++ ys)) ∧
    (∀ (raw : List RawRow) (y : Nat) (out : List Event), RawDetectSpec raw y out →
      ∀ e ∈ out, e.date ∈ (dropna raw).map Prod.fst) ∧
    (∀ (raw : List RawEvent) (out : List Event), ManualCleanSpec raw out →
      ∀ e ∈ out, ∃ r ∈ raw, r.date = some e.date ∧ r.label = e.label) ∧
    (∀ out, RawDetectSpec
        [{ date := some ⟨2022,1,1⟩, value := some 0 },
         { date := some ⟨2022,1,2⟩, value := none },
         { date := some ⟨2022,1,3⟩, value := some 0 },
         { date := some ⟨2022,1,4⟩, value := some 1 }] 2022 out →
      out = [{ date := ⟨2022,1,1⟩, label := Label.rangeSet 0,
               category := fedCategory, rationale := fedRationale },
             { date := ⟨2022,1,4⟩, label := Label.rangeUp 1,
               category := fedCategory, rationale := fedRationale }]) := by
  refine ⟨?_, ?_, ?_, ?_⟩
  · intro xs ys r hr
    have hc := dropna_cons_none hr ys
    simp only [dropna] at hc ⊢
    simp [List.filterMap_append, hc]
  · rintro raw y out ⟨s, ⟨hperm, hsort⟩, rfl⟩ e he
    have h1 : e.date ∈ (detectRuns (filterYear y s)).map Event.date :=
      List.mem_map_of_mem Event.date he
    have h2 : e.date ∈ (filterYear y s).map Prod.fst :=
      (detectFrom_dates_sublist _ none).subset h1
    have h3 : e.date ∈ s.map Prod.fst :=
      ((List.filter_sublist _).map Prod.fst).subset h2
    exact ((hperm.map Prod.fst).mem_iff).1 h3
  · rintro raw out ⟨hperm, hsort⟩ e he
    obtain ⟨r, hr, hfr⟩ := List.mem_filterMap.1 (hperm.subset he)
    rcases r with ⟨rd, rl, rc, rr⟩
    cases rd with
    | none => exact absurd hfr (by simp)
    | some d =>
      have he2 := Option.some.inj hfr
      subst he2
      exact ⟨⟨some d, rl, rc, rr⟩, hr, rfl, rfl⟩
  · intro out h
    have hsorted : (dropna
        [{ date := some ⟨2022,1,1⟩, value := some 0 },
         { date := some ⟨2022,1,2⟩, value := none },
         { date := some ⟨2022,1,3⟩, value := some 0 },
         { date := some ⟨2022,1,4⟩, value := some 1 }]).Pairwise
        (fun a b => a.1.lt b.1) := by decide
    rw [detect_changes_det hsorted h]
    decide

/-- Witness for C10: removing the unparseable middle row leaves the clean
series unchanged. -/
theorem dropna_valid_rows_witness :
    dropna ([{ date := some ⟨2022,1,1⟩, value := some 0 }] ++
        { date := some ⟨2022,1,2⟩, value := (none : Option ℚ) } ::
        [{ date := some ⟨2022,1,3⟩, value := some 0 }]) =
      dropna ([{ date := some ⟨2022,1,1⟩, value := some 0 }] ++
        [{ date := some ⟨2022,1,3⟩, value := some 0 }]) :=
  dropna_valid_rows.1 [{ date := some ⟨2022,1,1⟩, value := some 0 }]
    [{ date := some ⟨2022,1,3⟩, value := some 0 }]
    { date := some ⟨2022,1,2⟩, value := none } (Or.inr rfl)

end SteelEvents
